import Mathlib

/-!
Verification of the instrument command bridge in `src/pc_app/OsciFootswitch.py`
(scope-footswitch-trigger).

Shallow embedding conventions:
* byte strings (`bytes`) are `List Nat` (each entry one byte value);
* Python slices `raw[a:b]` become `(raw.drop a).take (b - a)` — both clamp
  silently, exactly like Python slicing;
* exceptions are `Except σ α`: the `error` constructor carries the state of
  the object at the moment the exception propagates out of the method;
* `int(bs)` on a bytes slice is modelled by `parseDecBytes`, defined for the
  all-decimal-digit contents that the block protocol produces (`int` raises
  on an empty or non-digit slice, modelled by `none`).
-/

namespace Osci

/-! ### Decimal representations (Python `str(n)` / `int(bs)`) -/

/-- ASCII decimal digit test (`0x30`–`0x39`). -/
def isDigitByte (b : Nat) : Bool := 48 ≤ b && b ≤ 57

/-- Model of Python `int(bs)` for a bytes slice `bs`: succeeds on a nonempty
all-decimal-digit slice with its decimal value, fails (raises `ValueError`)
otherwise. -/
def parseDecBytes (l : List Nat) : Option Nat :=
  if l.isEmpty then none
  else if l.all isDigitByte then
    some (l.foldl (fun a b => 10 * a + (b - 48)) 0)
  else none

/-- Fuel-driven little-endian decimal digit list of `m` (`[]` for `m = 0`);
structural recursion so that concrete instances evaluate in the kernel. -/
def toDigitsRev : Nat → Nat → List Nat
  | 0, _ => []
  | fuel + 1, m => if m = 0 then [] else m % 10 :: toDigitsRev fuel (m / 10)

/-- Most-significant-first decimal digits of `m`, with `str(0) = "0"`. -/
def decDigits (m : Nat) : List Nat :=
  if m = 0 then [0] else (toDigitsRev m m).reverse

/-- ASCII bytes of Python `str(m)` for a natural `m`. -/
def decBytes (m : Nat) : List Nat := (decDigits m).map (· + 48)

/-- `len(str(m))`: the number of decimal digits of `m`. -/
def numDigits (m : Nat) : Nat := (decDigits m).length

/-! ### Block Transport Codec

`encode` is the header construction of `MainWindow.load_setup`
(`header = f"#{len(str(len(data)))}{len(data)}".encode(); payload = header + data`).

`decode` is the IEEE-488.2 header strip of `ScopeController.get_screenshot_png`
and `ScopeController.save_setup`:

    if raw.startswith(b"#"):
        n = int(raw[1:2])
        length = int(raw[2:2 + n])
        data = raw[2 + n:2 + n + length]
    else:
        data = raw

returned together with the number of header bytes consumed (`2 + n`, or `0`
in the fallback branch). `none` models the `ValueError` that `int` raises on
an empty or non-digit slice. -/

def encode (data : List Nat) : List Nat :=
  let lenStr := decBytes data.length
  35 :: decBytes lenStr.length ++ lenStr ++ data

def decode (raw : List Nat) : Option (List Nat × Nat) :=
  if raw.head? = some 35 then
    match parseDecBytes ((raw.drop 1).take 1) with
    | none => none
    | some n =>
      match parseDecBytes ((raw.drop 2).take n) with
      | none => none
      | some len => some ((raw.drop (2 + n)).take len, 2 + n)
  else some (raw, 0)

/-! ### Instrument Session (`ScopeController` binary exchanges)

The mode-relevant state of the pyvisa resource: the two termination strings
(`'\n'`/`'\n'` is LINE mode, `''`/`''` is RAW mode) and the timeout. -/

structure Session where
  write_termination : String
  read_termination : String
  timeout : Nat
deriving DecidableEq, Repr

/-- `ScopeController.get_screenshot_png`, restricted to its effect on the
session state and the returned bytes.  `rawRes` is the outcome of the inner
`self.scope.read_raw()`: `some raw` when the read returns `raw`, `none` when
it raises.  The two `write` calls and the returned data do not touch the
session fields.  The method has no `try/finally`, so the statements are
executed in source order and an exception propagates with the session exactly
as it was at the raise point (`Except.error`). -/
def get_screenshot_png (s : Session) (rawRes : Option (List Nat)) :
    Except Session (Session × List Nat) :=
  -- Binary mode
  let s1 : Session := { s with write_termination := "", read_termination := "" }
  let old_timeout := s1.timeout
  let s2 : Session := { s1 with timeout := 10000 }
  -- write INKSaver, write DISPlay:DATA?, then read_raw
  match rawRes with
  | none => .error s2
  | some raw =>
    -- Restore ASCII mode
    let s3 : Session := { s2 with
      write_termination := "\n", read_termination := "\n", timeout := old_timeout }
    -- Strip IEEE-488.2 binary header (int() may raise, after the restore)
    match decode raw with
    | some (data, _) => .ok (s3, data)
    | none => .error s3

/-- `ScopeController.save_setup`, same shape as `get_screenshot_png` but with
the 5000 ms bulk timeout; the final file write is outside the core. -/
def save_setup (s : Session) (rawRes : Option (List Nat)) :
    Except Session (Session × List Nat) :=
  let s1 : Session := { s with write_termination := "", read_termination := "" }
  let old_timeout := s1.timeout
  let s2 : Session := { s1 with timeout := 5000 }
  match rawRes with
  | none => .error s2
  | some raw =>
    let s3 : Session := { s2 with
      write_termination := "\n", read_termination := "\n", timeout := old_timeout }
    match decode raw with
    | some (data, _) => .ok (s3, data)
    | none => .error s3

/-- The session state an exchange leaves behind, whether it returns normally
or propagates an exception. -/
def exchSession : Except Session (Session × List Nat) → Session
  | .ok (s, _) => s
  | .error s => s

/-! ### Event Dispatcher (`ScopeController` run-state commands and
`MainWindow.handle_event`)

Dispatcher-visible state: `running` (`ScopeController.running`, initially
`False`), the ordered list of commands successfully written to the
instrument, and the log lines appended through `log_msg`.  A write either
succeeds (`ok = true`) or raises; on a raise the command is not delivered and
`Except.error` carries the state at the raise point. -/

structure ScopeSt where
  running : Bool
  cmds : List String
  log : List String
deriving DecidableEq, Repr

def ScopeSt.init : ScopeSt := { running := false, cmds := [], log := [] }

def writeCmd (ok : Bool) (c : String) (st : ScopeSt) : Except ScopeSt ScopeSt :=
  if ok then .ok { st with cmds := st.cmds ++ [c] } else .error st

/-- `ScopeController.run`: write `:RUN`, then set `running = True`.  If the
write raises, the assignment is never reached. -/
def runCmd (ok : Bool) (st : ScopeSt) : Except ScopeSt ScopeSt :=
  match writeCmd ok ":RUN" st with
  | .ok s => .ok { s with running := true }
  | .error s => .error s

/-- `ScopeController.stop`: write `:STOP`, then set `running = False`. -/
def stopCmd (ok : Bool) (st : ScopeSt) : Except ScopeSt ScopeSt :=
  match writeCmd ok ":STOP" st with
  | .ok s => .ok { s with running := false }
  | .error s => .error s

/-- `ScopeController.single`: write `:SINGLE`; `running` untouched. -/
def singleCmd (ok : Bool) (st : ScopeSt) : Except ScopeSt ScopeSt :=
  writeCmd ok ":SINGLE" st

/-- `ScopeController.trigger_auto`. -/
def triggerAutoCmd (ok : Bool) (st : ScopeSt) : Except ScopeSt ScopeSt :=
  writeCmd ok ":TRIG:MODE AUTO" st

/-- `ScopeController.trigger_normal`. -/
def triggerNormalCmd (ok : Bool) (st : ScopeSt) : Except ScopeSt ScopeSt :=
  writeCmd ok ":TRIG:MODE NORM" st

def logMsg (m : String) (st : ScopeSt) : ScopeSt := { st with log := st.log ++ [m] }

/-- `MainWindow.handle_event`.  `ok c` tells whether writing command `c` to
the instrument succeeds.  The body is one `try/except` block: any exception
from a scope call is caught and logged (`self.log_msg(str(e))`, modelled as
the line `"ERROR"`).  Events other than `B1S`/`B1L`/`B2S`/`B2L` match no
branch: the method falls through and does nothing — in particular it does
not log them. -/
def handle_event (ok : String → Bool) (ev : String) (st : ScopeSt) : ScopeSt :=
  let res : Except ScopeSt ScopeSt :=
    if ev = "B1S" then
      if st.running then
        match stopCmd (ok ":STOP") st with
        | .ok s => .ok (logMsg "Event B1S: STOP" s)
        | .error s => .error s
      else
        match runCmd (ok ":RUN") st with
        | .ok s => .ok (logMsg "Event B1S: RUN" s)
        | .error s => .error s
    else if ev = "B1L" then
      match triggerAutoCmd (ok ":TRIG:MODE AUTO") st with
      | .ok s =>
        match runCmd (ok ":RUN") s with
        | .ok s2 => .ok (logMsg "Event B1L: TRIGGER AUTO, RUN" s2)
        | .error s2 => .error s2
      | .error s => .error s
    else if ev = "B2S" then
      match triggerNormalCmd (ok ":TRIG:MODE NORM") st with
      | .ok s =>
        match singleCmd (ok ":SINGLE") s with
        | .ok s2 => .ok (logMsg "Event B2S: TRIGGER NORMAL, SINGLE" s2)
        | .error s2 => .error s2
      | .error s => .error s
    else if ev = "B2L" then
      match triggerAutoCmd (ok ":TRIG:MODE AUTO") st with
      | .ok s =>
        match singleCmd (ok ":SINGLE") s with
        | .ok s2 => .ok (logMsg "Event B2L: TRIGGER AUTO, SINGLE" s2)
        | .error s2 => .error s2
      | .error s => .error s
    else .ok st
  match res with
  | .ok s => s
  | .error s => logMsg "ERROR" s

/-- Final state of either branch of a scope command. -/
def cmdSt : Except ScopeSt ScopeSt → ScopeSt
  | .ok s => s
  | .error s => s

/-! ### Device Event Source (`SerialReader.run` line handling)

`line = self.ser.readline().decode(errors="ignore").strip()` followed by
`if line: self.queue.put(line)`.

`bytes.decode` with UTF-8 is modelled by a byte-level UTF-8 decoder
(standard table: C2..DF one continuation; E0 A0..BF, ED 80..9F, other
E1..EF 80..BF, two continuations; F0 90..BF, F4 80..8F, other F1..F3
80..BF, three continuations).  On an invalid sequence the error handler
output `repl` is emitted and decoding resumes at the first offending byte —
`errors="ignore"` is `repl = []`, while the `errors="replace"` behaviour the
spec describes is `repl = [U+FFFD]`. -/

def isCont (b : Nat) : Bool := 128 ≤ b && b ≤ 191

def utf8Aux (repl : List Char) : Nat → List Nat → List Char
  | 0, _ => []
  | _, [] => []
  | fuel + 1, b :: rest =>
    if b ≤ 127 then Char.ofNat b :: utf8Aux repl fuel rest
    else if 194 ≤ b && b ≤ 223 then
      match rest with
      | [] => repl
      | c1 :: rest1 =>
        if isCont c1 then
          Char.ofNat ((b - 192) * 64 + (c1 - 128)) :: utf8Aux repl fuel rest1
        else repl ++ utf8Aux repl fuel rest
    else if 224 ≤ b && b ≤ 239 then
      match rest with
      | [] => repl
      | c1 :: rest1 =>
        if (if b = 224 then 160 ≤ c1 && c1 ≤ 191
            else if b = 237 then 128 ≤ c1 && c1 ≤ 159
            else isCont c1) then
          match rest1 with
          | [] => repl
          | c2 :: rest2 =>
            if isCont c2 then
              Char.ofNat ((b - 224) * 4096 + (c1 - 128) * 64 + (c2 - 128)) ::
                utf8Aux repl fuel rest2
            else repl ++ utf8Aux repl fuel rest1
        else repl ++ utf8Aux repl fuel rest
    else if 240 ≤ b && b ≤ 244 then
      match rest with
      | [] => repl
      | c1 :: rest1 =>
        if (if b = 240 then 144 ≤ c1 && c1 ≤ 191
            else if b = 244 then 128 ≤ c1 && c1 ≤ 143
            else isCont c1) then
          match rest1 with
          | [] => repl
          | c2 :: rest2 =>
            if isCont c2 then
              match rest2 with
              | [] => repl
              | c3 :: rest3 =>
                if isCont c3 then
                  Char.ofNat ((b - 240) * 262144 + (c1 - 128) * 4096 +
                      (c2 - 128) * 64 + (c3 - 128)) :: utf8Aux repl fuel rest3
                else repl ++ utf8Aux repl fuel rest2
            else repl ++ utf8Aux repl fuel rest1
        else repl ++ utf8Aux repl fuel rest
    else repl ++ utf8Aux repl fuel rest

/-- Model of the source's `bs.decode(errors="ignore")`: malformed sequences
are dropped. -/
def decodeIgnore (bs : List Nat) : List Char := utf8Aux [] bs.length bs

/-- Modelled from the spec: the `errors="replace"` decoding the spec claims
("malformed byte sequences are replaced"), substituting U+FFFD. -/
def decodeReplace (bs : List Nat) : List Char :=
  utf8Aux [Char.ofNat 65533] bs.length bs

/-- Python `str.strip()` whitespace set, for the ASCII range the serial
tokens live in. -/
def isWS (c : Char) : Bool :=
  c = ' ' || c = '\t' || c = '\n' || c = '\r' || c = Char.ofNat 11 || c = Char.ofNat 12

/-- Python `s.strip()`. -/
def pyStrip (l : List Char) : List Char :=
  ((l.dropWhile isWS).reverse.dropWhile isWS).reverse

/-- One iteration of the `SerialReader.run` loop body on a line `bs` read
from the device, acting on the event queue `q`:
`line = bs.decode(errors="ignore").strip(); if line: queue.put(line)`. -/
def serialHandleLine (bs : List Nat) (q : List (List Char)) : List (List Char) :=
  let line := pyStrip (decodeIgnore bs)
  if line = [] then q else q ++ [line]

/-! ### Arithmetic facts about the decimal helpers -/

theorem toDigitsRev_eq_digits :
    ∀ fuel m, m ≤ fuel → toDigitsRev fuel m = Nat.digits 10 m := by
  intro fuel
  induction fuel with
  | zero =>
    intro m hm
    have : m = 0 := Nat.le_zero.mp hm
    simp [toDigitsRev, this]
  | succ f ih =>
    intro m hm
    by_cases h : m = 0
    · simp [toDigitsRev, h]
    · have hdiv : m / 10 ≤ f := by
        have := Nat.div_lt_self (Nat.pos_of_ne_zero h) (by norm_num : 1 < 10)
        omega
      rw [toDigitsRev, if_neg h, ih (m / 10) hdiv,
        Nat.digits_def' (by norm_num : 1 < 10) (Nat.pos_of_ne_zero h)]

theorem decDigits_eq (m : Nat) :
    decDigits m = if m = 0 then [0] else (Nat.digits 10 m).reverse := by
  by_cases h : m = 0 <;> simp [decDigits, h, toDigitsRev_eq_digits m m le_rfl]

theorem decDigits_ne_nil (m : Nat) : decDigits m ≠ [] := by
  rw [decDigits_eq]
  by_cases h : m = 0
  · simp [h]
  · simp [h, Nat.digits_ne_nil_iff_ne_zero.mpr h]

theorem decDigits_lt_ten {m d : Nat} (hd : d ∈ decDigits m) : d < 10 := by
  rw [decDigits_eq] at hd
  by_cases h : m = 0
  · simp [h] at hd; omega
  · rw [if_neg h, List.mem_reverse] at hd
    exact Nat.digits_lt_base (by norm_num) hd

theorem foldr_eq_ofDigits (l : List Nat) :
    l.foldr (fun d a => 10 * a + d) 0 = Nat.ofDigits 10 l := by
  induction l with
  | nil => simp [Nat.ofDigits_nil]
  | cons d t ih =>
    simp only [List.foldr_cons, Nat.ofDigits_cons, ih]
    omega

theorem foldl_decDigits (m : Nat) :
    (decDigits m).foldl (fun a d => 10 * a + d) 0 = m := by
  rw [decDigits_eq]
  by_cases h : m = 0
  · simp [h]
  · rw [if_neg h, List.foldl_reverse, foldr_eq_ofDigits, Nat.ofDigits_digits]

theorem parseDecBytes_decBytes (m : Nat) : parseDecBytes (decBytes m) = some m := by
  have hne : decBytes m ≠ [] := by
    simp only [decBytes, ne_eq, List.map_eq_nil_iff]
    exact decDigits_ne_nil m
  have hall : (decBytes m).all isDigitByte = true := by
    simp only [decBytes, List.all_map, List.all_eq_true, Function.comp]
    intro d hd
    have := decDigits_lt_ten hd
    simp only [isDigitByte, Bool.and_eq_true, decide_eq_true_eq]
    omega
  rw [parseDecBytes, if_neg (by simpa using hne), if_pos hall, decBytes,
    List.foldl_map]
  simp only [Nat.add_sub_cancel, foldl_decDigits]

theorem numDigits_pos (m : Nat) : 1 ≤ numDigits m := by
  have := decDigits_ne_nil m
  have := List.length_pos.mpr this
  simpa [numDigits] using this

theorem numDigits_le_nine {m : Nat} (hm : m < 10 ^ 9) : numDigits m ≤ 9 := by
  by_cases h : m = 0
  · simp [numDigits, decDigits_eq, h]
  · have hlen : numDigits m = (Nat.digits 10 m).length := by
      simp [numDigits, decDigits_eq, h]
    by_contra hgt
    push_neg at hgt
    have h10 : 10 ≤ (Nat.digits 10 m).length := by omega
    have hpow : (10 : Nat) ^ (Nat.digits 10 m).length ≤ 10 * m :=
      Nat.base_pow_length_digits_le 10 m (by norm_num) h
    have : (10 : Nat) ^ 10 ≤ 10 ^ (Nat.digits 10 m).length :=
      Nat.pow_le_pow_right (by norm_num) h10
    have : (10 : Nat) ^ 10 ≤ 10 * m := le_trans this hpow
    have : (10 : Nat) ^ 9 ≤ m := by
      have h9 : (10 : Nat) ^ 10 = 10 * 10 ^ 9 := by ring
      omega
    omega

theorem decDigits_single {n : Nat} (h1 : 1 ≤ n) (h9 : n ≤ 9) :
    decDigits n = [n] := by
  rw [decDigits_eq, if_neg (by omega)]
  rw [Nat.digits_of_lt 10 n (by omega) (by omega)]
  rfl

theorem decBytes_length (m : Nat) : (decBytes m).length = numDigits m := by
  simp [decBytes, numDigits]

theorem parseDecBytes_single {n : Nat} (h : n ≤ 9) :
    parseDecBytes [n + 48] = some n := by
  have hd : isDigitByte (n + 48) = true := by
    simp only [isDigitByte, Bool.and_eq_true, decide_eq_true_eq]
    omega
  simp only [parseDecBytes, List.isEmpty_cons, List.all_cons, List.all_nil,
    Bool.and_true, hd, if_pos, List.foldl_cons, List.foldl_nil]
  rw [if_neg (by simp)]
  congr 1
  omega

/-! ### Codec lemmas -/

/-- Behaviour of `decode` once both header fields parse. -/
theorem decode_of_header {b : List Nat} {n len : Nat}
    (hb : b.head? = some 35)
    (hn : parseDecBytes ((b.drop 1).take 1) = some n)
    (hl : parseDecBytes ((b.drop 2).take n) = some len) :
    decode b = some ((b.drop (2 + n)).take len, 2 + n) := by
  rw [decode, if_pos hb]
  simp only [hn, hl]

theorem encode_cons (p : List Nat) (hp : p.length < 10 ^ 9) :
    encode p = 35 :: (numDigits p.length + 48) :: (decBytes p.length ++ p) := by
  have hLlen : (decBytes p.length).length = numDigits p.length := decBytes_length _
  have hnb : decBytes (decBytes p.length).length = [numDigits p.length + 48] := by
    rw [hLlen, decBytes, decDigits_single (numDigits_pos _) (numDigits_le_nine hp)]
    rfl
  simp only [encode, hnb, List.cons_append, List.singleton_append,
    List.append_assoc, List.nil_append]

theorem decode_encode_eq (p : List Nat) (hp : p.length < 10 ^ 9) :
    decode (encode p) = some (p, 2 + numDigits p.length) := by
  have hLlen : (decBytes p.length).length = numDigits p.length := decBytes_length _
  rw [encode_cons p hp]
  have hn : (((35 :: (numDigits p.length + 48) :: (decBytes p.length ++ p)).drop 1).take 1)
      = [numDigits p.length + 48] := rfl
  have hl2 : ((35 :: (numDigits p.length + 48) :: (decBytes p.length ++ p)).drop 2)
      = decBytes p.length ++ p := rfl
  have hdec : decode (35 :: (numDigits p.length + 48) :: (decBytes p.length ++ p))
      = some (((35 :: (numDigits p.length + 48) :: (decBytes p.length ++ p)).drop
          (2 + numDigits p.length)).take p.length, 2 + numDigits p.length) :=
    decode_of_header rfl
      (by rw [hn]; exact parseDecBytes_single (numDigits_le_nine hp))
      (by rw [hl2, ← hLlen, List.take_left]; exact parseDecBytes_decBytes _)
  rw [hdec]
  have hdrop : (35 :: (numDigits p.length + 48) :: (decBytes p.length ++ p)).drop
      (2 + numDigits p.length) = p := by
    have h2 : 2 + numDigits p.length = (numDigits p.length + 1) + 1 := by omega
    rw [h2, List.drop_succ_cons, List.drop_succ_cons, ← hLlen, List.drop_left]
  rw [hdrop, List.take_length]

theorem payload_length_full {b : List Nat} {n len : Nat}
    (h : 2 + n + len ≤ b.length) :
    ((b.drop (2 + n)).take len).length = len := by
  simp only [List.length_take, List.length_drop]
  omega

theorem payload_length_trunc {b : List Nat} {n len : Nat}
    (h : b.length < 2 + n + len) (hlen : 0 < len) :
    ((b.drop (2 + n)).take len).length < len := by
  simp only [List.length_take, List.length_drop]
  omega

theorem numDigits_pow_nine : numDigits (10 ^ 9) = 10 := by
  have h : numDigits (10 ^ 9) = (Nat.digits 10 (10 ^ 9)).length := by
    rw [numDigits, decDigits_eq, if_neg (by positivity), List.length_reverse]
  have h1 := Nat.digits_len 10 (10 ^ 9) (by norm_num) (by positivity)
  have h2 : Nat.log 10 (10 ^ 9) = 9 := Nat.log_pow (by norm_num) 9
  omega

theorem encode_pow_nine (p : List Nat) (hp : p.length = 10 ^ 9) :
    encode p = 35 :: 49 :: 48 :: (decBytes (10 ^ 9) ++ p) := by
  have h1 : (decBytes (10 ^ 9 : Nat)).length = 10 := by
    rw [decBytes_length, numDigits_pow_nine]
  have h2 : decBytes (10 : Nat) = [49, 48] := by decide
  simp only [encode, hp, h1, h2, List.cons_append, List.append_assoc,
    List.nil_append]

theorem decode_encode_pow_nine (p : List Nat) (hp : p.length = 10 ^ 9) :
    decode (encode p) = some ([], 3) := by
  rw [encode_pow_nine p hp]
  have e1 : ((35 :: 49 :: 48 :: (decBytes (10 ^ 9) ++ p)).drop 1).take 1
      = [49] := rfl
  have e2 : ((35 :: 49 :: 48 :: (decBytes (10 ^ 9) ++ p)).drop 2).take 1
      = [48] := rfl
  have hdec : decode (35 :: 49 :: 48 :: (decBytes (10 ^ 9) ++ p))
      = some (((35 :: 49 :: 48 :: (decBytes (10 ^ 9) ++ p)).drop (2 + 1)).take 0,
          2 + 1) :=
    decode_of_header rfl (by rw [e1]; decide) (by rw [e2]; decide)
  simpa using hdec

/-! ### Serial decoding lemmas -/

theorem utf8Aux_ascii (repl : List Char) :
    ∀ (fuel : Nat) (bs : List Nat), bs.length ≤ fuel → (∀ b ∈ bs, b ≤ 127) →
      utf8Aux repl fuel bs = bs.map Char.ofNat := by
  intro fuel
  induction fuel with
  | zero =>
    intro bs h _
    have hnil : bs = [] := List.eq_nil_of_length_eq_zero (Nat.le_zero.mp h)
    subst hnil
    rfl
  | succ f ih =>
    intro bs h hb
    match bs with
    | [] => rfl
    | b :: rest =>
      have hb127 : b ≤ 127 := hb b (List.mem_cons_self b rest)
      have hlen : rest.length ≤ f := by
        simpa using Nat.le_of_succ_le_succ (by simpa using h)
      simp only [utf8Aux, if_pos hb127, List.map_cons]
      rw [ih rest hlen (fun x hx => hb x (List.mem_cons_of_mem b hx))]

theorem decodeIgnore_ascii (bs : List Nat) (h : ∀ b ∈ bs, b ≤ 127) :
    decodeIgnore bs = bs.map Char.ofNat :=
  utf8Aux_ascii [] bs.length bs le_rfl h

/-! ### Dispatcher lemmas -/

theorem handle_event_unmatched (ok : String → Bool) (ev : String) (st : ScopeSt)
    (h1 : ev ≠ "B1S") (h2 : ev ≠ "B1L") (h3 : ev ≠ "B2S") (h4 : ev ≠ "B2L") :
    handle_event ok ev st = st := by
  simp [handle_event, h1, h2, h3, h4]

theorem handle_event_B2S_running (ok : String → Bool) (st : ScopeSt) :
    (handle_event ok "B2S" st).running = st.running := by
  cases hb1 : ok ":TRIG:MODE NORM" <;> cases hb2 : ok ":SINGLE" <;>
    simp [handle_event, triggerNormalCmd, singleCmd, writeCmd, logMsg, hb1, hb2]

theorem handle_event_B2L_running (ok : String → Bool) (st : ScopeSt) :
    (handle_event ok "B2L" st).running = st.running := by
  cases hb1 : ok ":TRIG:MODE AUTO" <;> cases hb2 : ok ":SINGLE" <;>
    simp [handle_event, triggerAutoCmd, singleCmd, writeCmd, logMsg, hb1, hb2]

/-! ## Claims -/

/-- C1: the spec claims that after an exception inside the raw
request/response step of a binary exchange the session is back in LINE mode
with the original timeout.  The source restores the terminations and the
timeout by plain assignments placed after `read_raw`, with no
`try`/`finally`, so when `read_raw` raises, the exchange propagates the
exception with both terminations still `''` (RAW) and the bulk timeout in
place: from a LINE-mode session with timeout 5000, a failing screenshot
fetch exits with terminations `''`/`''` and timeout 10000. -/
theorem C1_counterexample :
    get_screenshot_png
        { write_termination := "\n", read_termination := "\n", timeout := 5000 } none
      = .error { write_termination := "", read_termination := "", timeout := 10000 } ∧
    ("" : String) ≠ "\n" ∧ (10000 : Nat) ≠ 5000 :=
  ⟨rfl, by decide, by decide⟩

/-- C1 (amended): when the raw read returns (and even when the subsequent
header parse raises), the exchange leaves the terminations at `'\n'` (LINE)
and restores the exact prior timeout; but when the raw read itself raises,
the exception propagates with the session still in RAW mode (`''`/`''`) and
the bulk timeout (10000 for the screenshot fetch, 5000 for the setup fetch)
installed. -/
theorem C1_amended :
    (∀ (s : Session) (raw : List Nat),
      (exchSession (get_screenshot_png s (some raw))).write_termination = "\n" ∧
      (exchSession (get_screenshot_png s (some raw))).read_termination = "\n" ∧
      (exchSession (get_screenshot_png s (some raw))).timeout = s.timeout) ∧
    (∀ s : Session,
      get_screenshot_png s none
        = .error { write_termination := "", read_termination := "", timeout := 10000 }) ∧
    (∀ (s : Session) (raw : List Nat),
      (exchSession (save_setup s (some raw))).write_termination = "\n" ∧
      (exchSession (save_setup s (some raw))).read_termination = "\n" ∧
      (exchSession (save_setup s (some raw))).timeout = s.timeout) ∧
    (∀ s : Session,
      save_setup s none
        = .error { write_termination := "", read_termination := "", timeout := 5000 }) := by
  refine ⟨fun s raw => ?_, fun s => rfl, fun s raw => ?_, fun s => rfl⟩
  · cases h : decode raw with
    | none => simp [get_screenshot_png, exchSession, h]
    | some v =>
      obtain ⟨d, c⟩ := v
      simp [get_screenshot_png, exchSession, h]
  · cases h : decode raw with
    | none => simp [save_setup, exchSession, h]
    | some v =>
      obtain ⟨d, c⟩ := v
      simp [save_setup, exchSession, h]

/-- C2: for every payload `p` with fewer than 10^9 bytes, decoding the
encoding of `p` returns exactly `p` together with the header length
`2 + n`, where `n` is the decimal digit count of `len(p)`. -/
theorem C2_roundtrip (p : List Nat) (hp : p.length < 10 ^ 9) :
    decode (encode p) = some (p, 2 + numDigits p.length) :=
  decode_encode_eq p hp

/-- C2 witness: the round trip at the concrete payload `b"ABC"`. -/
theorem C2_roundtrip_witness :
    decode (encode [65, 66, 67]) = some ([65, 66, 67], 2 + numDigits 3) :=
  C2_roundtrip [65, 66, 67] (by decide)

/-- C3: RunState starts STOPPED (`running = false`); a `B1S` event in the
STOPPED state issues `:RUN` and on success RunState becomes RUNNING; a `B1S`
event in the RUNNING state issues `:STOP` and on success RunState returns to
STOPPED. -/
theorem C3_run_stop_toggle :
    ScopeSt.init.running = false ∧
    (∀ (ok : String → Bool) (st : ScopeSt), st.running = false → ok ":RUN" = true →
      (handle_event ok "B1S" st).running = true ∧
      (handle_event ok "B1S" st).cmds = st.cmds ++ [":RUN"]) ∧
    (∀ (ok : String → Bool) (st : ScopeSt), st.running = true → ok ":STOP" = true →
      (handle_event ok "B1S" st).running = false ∧
      (handle_event ok "B1S" st).cmds = st.cmds ++ [":STOP"]) := by
  refine ⟨rfl, fun ok st h hok => ?_, fun ok st h hok => ?_⟩
  · simp [handle_event, runCmd, writeCmd, logMsg, h, hok]
  · simp [handle_event, stopCmd, writeCmd, logMsg, h, hok]

/-- C3 witness: two consecutive `B1S` events from the initial state, with
all writes succeeding, toggle RunState to RUNNING and back to STOPPED. -/
theorem C3_run_stop_toggle_witness :
    (handle_event (fun _ => true) "B1S" ScopeSt.init).running = true ∧
    (handle_event (fun _ => true) "B1S"
      (handle_event (fun _ => true) "B1S" ScopeSt.init)).running = false := by
  refine ⟨(C3_run_stop_toggle.2.1 (fun _ => true) ScopeSt.init rfl rfl).1, ?_⟩
  exact (C3_run_stop_toggle.2.2 (fun _ => true) _
    (C3_run_stop_toggle.2.1 (fun _ => true) ScopeSt.init rfl rfl).1 rfl).1

/-- C4: when the underlying write raises, `run` and `stop` propagate the
failure to the caller and leave the whole dispatcher-visible state — in
particular `running` — exactly as it was (the `running` assignment sits
after the write and is never reached). -/
theorem C4_failed_write_preserves_runstate :
    ∀ st : ScopeSt, runCmd false st = .error st ∧ stopCmd false st = .error st :=
  fun _ => ⟨rfl, rfl⟩

/-- C5: the spec claims `decode` fails with a framing error when the buffer
holds fewer than the declared `L` payload bytes after the header.  Python
slicing clamps instead: on `b"#15ABC"` (declared length 5, only 3 payload
bytes) the source returns the truncated payload `b"ABC"` rather than
failing. -/
theorem C5_counterexample :
    parseDecBytes (([35, 49, 53, 65, 66, 67].drop 1).take 1) = some 1 ∧
    parseDecBytes (([35, 49, 53, 65, 66, 67].drop 2).take 1) = some 5 ∧
    ([35, 49, 53, 65, 66, 67] : List Nat).length < 2 + 1 + 5 ∧
    decode [35, 49, 53, 65, 66, 67] = some ([65, 66, 67], 3) := by decide

/-- C5 (amended): on a buffer whose header parses as digit count `n` and
length `len > 0` but which is shorter than `2 + n + len` bytes, `decode`
does not fail: it returns the truncated payload (all available bytes after
the header, fewer than `len` of them) with `2 + n` header bytes consumed. -/
theorem C5_amended :
    ∀ (b : List Nat) (n len : Nat), b.head? = some 35 →
      parseDecBytes ((b.drop 1).take 1) = some n →
      parseDecBytes ((b.drop 2).take n) = some len →
      0 < len → b.length < 2 + n + len →
      decode b = some ((b.drop (2 + n)).take len, 2 + n) ∧
        ((b.drop (2 + n)).take len).length < len :=
  fun _ _ _ hb hn hl hpos hshort =>
    ⟨decode_of_header hb hn hl, payload_length_trunc hshort hpos⟩

/-- C5 witness: the amended statement at the truncated buffer `b"#15ABC"`. -/
theorem C5_amended_witness :
    decode [35, 49, 53, 65, 66, 67] = some ([65, 66, 67], 3) ∧
    ((([35, 49, 53, 65, 66, 67] : List Nat).drop 3).take 5).length < 5 :=
  C5_amended [35, 49, 53, 65, 66, 67] 1 5 rfl (by decide) (by decide)
    (by decide) (by decide)

/-- C6: the spec claims `encode` returns an error when `len(payload)` needs
more than 9 decimal digits.  The source's header construction
`f"#{len(str(len(data)))}{len(data)}"` has no failure path: at a payload of
exactly 10^9 bytes it still produces an encoded block, whose digit-count
field is the two characters `"10"`. -/
theorem C6_counterexample :
    encode (List.replicate (10 ^ 9) 0)
      = 35 :: 49 :: 48 :: (decBytes (10 ^ 9) ++ List.replicate (10 ^ 9) 0) :=
  encode_pow_nine _ (List.length_replicate ..)

/-- C6 (amended): for a payload of 10^9 bytes `encode` does not fail — it
emits a block whose digit-count field `"10"` occupies two bytes, which
`decode` then misreads (digit count 1, length field `"0"`), so the round
trip collapses to the empty payload with 3 header bytes consumed. -/
theorem C6_amended (p : List Nat) (hp : p.length = 10 ^ 9) :
    encode p = 35 :: 49 :: 48 :: (decBytes (10 ^ 9) ++ p) ∧
    decode (encode p) = some ([], 3) :=
  ⟨encode_pow_nine p hp, decode_encode_pow_nine p hp⟩

/-- C6 witness: the amended statement at the concrete 10^9-byte payload of
zero bytes. -/
theorem C6_amended_witness :
    decode (encode (List.replicate (10 ^ 9) 0)) = some ([], 3) :=
  (C6_amended (List.replicate (10 ^ 9) 0) (List.length_replicate ..)).2

/-- C7: the spec's case-defined postcondition for `decode` holds (fallback
for buffers without `#`; exact `len`-byte payload at offset `2 + n` when the
buffer is long enough), but its concrete scenario is inconsistent with it:
`decode(b"#13ABCxyz")` consumes `2 + n = 3` header bytes, not 5 as the claim
states. -/
theorem C7_counterexample :
    decode [35, 49, 51, 65, 66, 67, 120, 121, 122] = some ([65, 66, 67], 3) ∧
    (([65, 66, 67], 3) : List Nat × Nat) ≠ ([65, 66, 67], 5) := by decide

/-- C7 (amended): a buffer not starting with `#` decodes to itself with 0
header bytes consumed; a buffer starting with `#` whose header declares
digit count `n` and length `len` and which holds at least `2 + n + len`
bytes decodes to exactly the `len` bytes at offset `2 + n`, consuming
`2 + n` bytes and leaving the rest unread; `decode(b"#13ABCxyz")` yields
payload `b"ABC"` with 3 (not 5) bytes consumed. -/
theorem C7_amended :
    (∀ b : List Nat, b.head? ≠ some 35 → decode b = some (b, 0)) ∧
    (∀ (b : List Nat) (n len : Nat), b.head? = some 35 →
      parseDecBytes ((b.drop 1).take 1) = some n →
      parseDecBytes ((b.drop 2).take n) = some len →
      2 + n + len ≤ b.length →
      decode b = some ((b.drop (2 + n)).take len, 2 + n) ∧
        ((b.drop (2 + n)).take len).length = len) ∧
    decode [35, 49, 51, 65, 66, 67, 120, 121, 122] = some ([65, 66, 67], 3) := by
  refine ⟨fun b hb => ?_,
    fun b n len hb hn hl hlen =>
      ⟨decode_of_header hb hn hl, payload_length_full hlen⟩,
    by decide⟩
  rw [decode, if_neg hb]

/-- C7 witness: the fallback case at `b"BC"` and the framed case at
`b"#12AB"`. -/
theorem C7_amended_witness :
    decode [66, 67] = some ([66, 67], 0) ∧
    decode [35, 49, 50, 65, 66] = some ([65, 66], 3) :=
  ⟨C7_amended.1 [66, 67] (by decide),
    (C7_amended.2.1 [35, 49, 50, 65, 66] 1 2 rfl (by decide) (by decide)
      (by decide)).1⟩

/-- C8: the spec claims unrecognized events (including error events) are
reported to the logging collaborator.  `MainWindow.handle_event` has no
`else` branch: an unrecognized token such as `"FOO"` falls through every
`elif`, so nothing is logged and the state is byte-for-byte unchanged. -/
theorem C8_counterexample :
    (handle_event (fun _ => true) "FOO" ScopeSt.init).log = ([] : List String) ∧
    handle_event (fun _ => true) "FOO" ScopeSt.init = ScopeSt.init := by decide

/-- C8 (amended): for every dispatched event other than the four recognized
tokens (including `ERROR:` events), the dispatcher issues no instrument
command, writes no log line, and leaves the whole state — in particular
RunState — unchanged; the event is silently ignored, not reported. -/
theorem C8_amended :
    ∀ (ok : String → Bool) (ev : String) (st : ScopeSt),
      ev ≠ "B1S" → ev ≠ "B1L" → ev ≠ "B2S" → ev ≠ "B2L" →
      handle_event ok ev st = st :=
  fun ok ev st h1 h2 h3 h4 => handle_event_unmatched ok ev st h1 h2 h3 h4

/-- C8 witness: a serial-failure event is silently ignored. -/
theorem C8_amended_witness :
    handle_event (fun _ => true) "ERROR:device unplugged" ScopeSt.init
      = ScopeSt.init :=
  C8_amended (fun _ => true) "ERROR:device unplugged" ScopeSt.init
    (by decide) (by decide) (by decide) (by decide)

/-- C9: `single`, `trigger_auto` and `trigger_normal` never change
`running`, whether their write succeeds or raises; dispatching `B2S` or
`B2L` leaves RunState untouched; and in the scenario where events
`[B2L, FOO, B2S]` arrive with RunState RUNNING, RunState is still RUNNING
after all three are processed. -/
theorem C9_b2_family_preserves_runstate :
    (∀ (ok : Bool) (st : ScopeSt), (cmdSt (singleCmd ok st)).running = st.running) ∧
    (∀ (ok : Bool) (st : ScopeSt), (cmdSt (triggerAutoCmd ok st)).running = st.running) ∧
    (∀ (ok : Bool) (st : ScopeSt), (cmdSt (triggerNormalCmd ok st)).running = st.running) ∧
    (∀ (ok : String → Bool) (st : ScopeSt),
      (handle_event ok "B2S" st).running = st.running) ∧
    (∀ (ok : String → Bool) (st : ScopeSt),
      (handle_event ok "B2L" st).running = st.running) ∧
    (∀ (ok : String → Bool) (st : ScopeSt), st.running = true →
      (["B2L", "FOO", "B2S"].foldl (fun s e => handle_event ok e s) st).running
        = true) := by
  refine ⟨fun ok st => ?_, fun ok st => ?_, fun ok st => ?_,
    handle_event_B2S_running, handle_event_B2L_running, fun ok st h => ?_⟩
  · cases ok <;> rfl
  · cases ok <;> rfl
  · cases ok <;> rfl
  · have hFOO : ∀ s : ScopeSt, handle_event ok "FOO" s = s := fun s =>
      handle_event_unmatched ok "FOO" s (by decide) (by decide) (by decide) (by decide)
    simp only [List.foldl_cons, List.foldl_nil, hFOO,
      handle_event_B2S_running, handle_event_B2L_running, h]

/-- C9 witness: the scenario `[B2L, FOO, B2S]` from a RUNNING state with all
writes succeeding. -/
theorem C9_b2_family_preserves_runstate_witness :
    (["B2L", "FOO", "B2S"].foldl
      (fun s e => handle_event (fun _ => true) e s)
      { running := true, cmds := [], log := [] }).running = true :=
  C9_b2_family_preserves_runstate.2.2.2.2.2 (fun _ => true)
    { running := true, cmds := [], log := [] } rfl

/-- C10: the spec claims malformed byte sequences are replaced with
replacement characters.  The source decodes with `errors="ignore"`, which
drops them: on the line `\xff A` the source yields `"A"` while the claimed
`errors="replace"` behaviour would yield `"� A"`. -/
theorem C10_counterexample :
    decodeIgnore [255, 65] = ['A'] ∧
    decodeReplace [255, 65] = [Char.ofNat 65533, 'A'] ∧
    decodeIgnore [255, 65] ≠ decodeReplace [255, 65] := by decide

/-- C10 (amended): decoding a serial line never fails, and malformed byte
sequences are dropped (ignored), not replaced; on all-ASCII lines the bytes
are decoded verbatim; the whitespace-trimmed result is pushed onto the event
queue exactly when it is non-empty. -/
theorem C10_amended :
    (∀ bs : List Nat, (∀ b ∈ bs, b ≤ 127) → decodeIgnore bs = bs.map Char.ofNat) ∧
    (∀ (bs : List Nat) (q : List (List Char)),
      (pyStrip (decodeIgnore bs) = [] → serialHandleLine bs q = q) ∧
      (pyStrip (decodeIgnore bs) ≠ [] →
        serialHandleLine bs q = q ++ [pyStrip (decodeIgnore bs)])) ∧
    decodeIgnore [255, 66, 49, 83] = ['B', '1', 'S'] := by
  refine ⟨fun bs h => decodeIgnore_ascii bs h,
    fun bs q => ⟨fun h => ?_, fun h => ?_⟩, by decide⟩
  · simp [serialHandleLine, h]
  · simp [serialHandleLine, h]

/-- C10 witness: an ASCII token line decodes verbatim and a blank line is
not enqueued. -/
theorem C10_amended_witness :
    decodeIgnore [66, 49, 83] = ['B', '1', 'S'] ∧
    serialHandleLine [32, 32] [] = [] := by
  constructor
  · have h := C10_amended.1 [66, 49, 83] (by decide)
    rw [h]; decide
  · exact (C10_amended.2.1 [32, 32] []).1 (by decide)

end Osci
